import Mathlib

/-!
Shallow embedding of `unet3d/generator_siam.py` (3D_RP-Net data generator).

Conventions of the embedding:
* numpy image volumes are flattened to `List ℚ` (their voxel values; shapes
  are irrelevant to the verified properties except where noted);
* integer label maps (`truth`) are flattened to `List Int`;
* a subject id, after the `.decode()` of the stored byte string, is a
  `List Char`;
* fallible Python code is modelled with `Except PyError`; a bare `raise`
  after a diagnostic print is modelled by the error constructor named after
  the spec's error kind, and Python runtime errors (`IndexError`,
  `ValueError` from tuple unpacking, `UnboundLocalError`/`NameError`,
  `AttributeError`) get constructors of their own;
* the module-level `random.shuffle` is modelled by an explicitly passed
  shuffle function, and the filesystem state consulted by the split manager
  (`os.path.exists`, pickled contents) by an explicit `SplitEnv` record.
-/

set_option autoImplicit false
set_option maxRecDepth 4096

namespace RPNet

/-- The failure modes of the generator module.  `invalidSubjectLabel`,
`dataConsistencyError` and `invalidShapeError` are the spec's named error
kinds (in the source each is a diagnostic print followed by a bare `raise`,
or a `ValueError` for the shape check); the remaining constructors model
Python runtime errors raised by defective code paths. -/
inductive PyError where
  /-- cohort character is not A, B or C (`get_data_from_file`, bare raise) -/
  | invalidSubjectLabel
  /-- `ids.split('-')[-1][0]` on an empty last segment -/
  | indexError
  /-- twin files disagree on the derived label (`add_data`, bare raise) -/
  | dataConsistencyError
  /-- permutation requested on a non-cube volume (`ValueError` in source) -/
  | invalidShapeError
  /-- reference to an undefined (local) name, e.g. `data` in the permute
  branch of `add_data`, or `data_file` in `data_generator`'s patch branch -/
  | nameError
  /-- attribute access on a value that lacks it, e.g. `list.shape` in
  `get_multi_class_labels` when handed a Python list -/
  | attributeError
  /-- tuple unpacking mismatch: `data, truth = get_data_from_file(...)`
  unpacks a 3-tuple into two names in the patch branch -/
  | valueError
  deriving DecidableEq, Repr

/-- Python's `str.split('-')` on a decoded id, specialised to the single
separator character used by the source: returns the (always nonempty) list
of segments between occurrences of `'-'`. -/
def splitOnDash : List Char → List (List Char)
  | [] => [[]]
  | c :: rest =>
    match splitOnDash rest with
    | [] => [[]]
    | seg :: segs => if c = '-' then [] :: seg :: segs else (c :: seg) :: segs

theorem splitOnDash_ne_nil (l : List Char) : splitOnDash l ≠ [] := by
  cases l with
  | nil => simp [splitOnDash]
  | cons c rest =>
    simp only [splitOnDash]
    cases splitOnDash rest with
    | nil => simp
    | cons seg segs =>
      by_cases h : c = '-' <;> simp [h]

theorem splitOnDash_of_not_mem {l : List Char} (h : '-' ∉ l) :
    splitOnDash l = [l] := by
  induction l with
  | nil => rfl
  | cons c rest ih =>
    have hc : c ≠ '-' := fun hc => h (hc ▸ List.mem_cons_self c rest)
    have hrest : '-' ∉ rest := fun hr => h (List.mem_cons_of_mem c hr)
    simp only [splitOnDash, ih hrest]
    simp [hc]

/-- Embeds lines 306–315 of `get_data_from_file`: decode the subject id,
split on `'-'`, look at the first character of the last segment, and map
`'C' ↦ 1`, `'A'/'B' ↦ 0`, anything else to the fatal
`invalidSubjectLabel`; indexing `[0]` into an empty last segment is an
`IndexError`. -/
def labelFromIds (ids : List Char) : Except PyError Nat :=
  match (splitOnDash ids).getLastD [] with
  | [] => .error .indexError
  | c :: _ =>
    if c = 'C' then .ok 1
    else if c = 'A' ∨ c = 'B' then .ok 0
    else .error .invalidSubjectLabel

/-- One opened hdf5 dataset file: the four aligned per-subject collections
consulted by the generator (`root.data`, `root.truth[·, 0]`,
`root.subject_ids` already decoded, `root.affine`). -/
structure DataFile where
  data : Nat → List ℚ
  truth : Nat → List Int
  subject_ids : Nat → List Char
  affine : Nat → List ℚ

/-- Embeds `get_data_from_file` (lines 298–316).  With a patch shape the
source unpacks the recursive 3-tuple result into two names
(`data, truth = get_data_from_file(...)`), a `ValueError` at runtime, so the
patch branch is modelled as that error; the whole-volume branch reads the
image, channel 0 of the truth, and the derived label. -/
def get_data_from_file (data_file : DataFile) (index : Nat)
    (patch_shape : Option (List Nat)) :
    Except PyError (List ℚ × List Int × Nat) :=
  match patch_shape with
  | some _ => .error .valueError
  | none =>
    match labelFromIds (data_file.subject_ids index) with
    | .error e => .error e
    | .ok label => .ok (data_file.data index, data_file.truth index, label)

/-- Embeds `get_number_of_steps` (lines 97–103); `np.remainder` on
nonnegative integers is `%`. -/
def get_number_of_steps (n_samples batch_size : Nat) : Nat :=
  if n_samples ≤ batch_size then n_samples
  else if n_samples % batch_size = 0 then n_samples / batch_size
  else n_samples / batch_size + 1

/-- Python's `list(range(a, b))`. -/
def pyRange (a b : Nat) : List Nat := List.range' a (b - a)

/-- Python's `l * n` (list repetition). -/
def listRepeat (l : List Nat) (n : Nat) : List Nat := (List.replicate n l).flatten

/-- The ambient state consulted by `get_validation_split`: whether the
training pickle file exists, the two pickled lists that `pickle_load` would
return, and the behaviour of `random.shuffle` (modelled functionally). -/
structure SplitEnv where
  trainingFileExists : Bool
  storedTraining : List Nat
  storedValidation : List Nat
  shuffleFn : List Nat → List Nat

/-- Embeds `get_validation_split` (lines 106–146): on overwrite or a missing
training file, build the fixed three-cohort partition, shuffle the training
list, persist both and return them; otherwise return the pickled lists.
`data_split` is accepted and ignored, exactly as in the source. -/
def get_validation_split (env : SplitEnv) (data_split : ℚ) (overwrite : Bool) :
    List Nat × List Nat :=
  if overwrite || !env.trainingFileExists then
    let test_listA := pyRange 10 30
    let train_listA1 := pyRange 0 10
    let train_listA2 := pyRange 30 42
    let test_listB := pyRange 52 72
    let train_listB1 := pyRange 42 52
    let train_listB2 := pyRange 72 239
    let test_listC := pyRange 249 269
    let train_listC1 := pyRange 239 249
    let train_listC2 := pyRange 269 299
    let training_list := train_listA1 ++ train_listA2 ++ train_listB1 ++ train_listB2
      ++ [train_listB2.getLastD 0] ++ listRepeat train_listC1 5 ++ listRepeat train_listC2 5
    let validation_list := test_listA ++ test_listB ++ test_listC
    (env.shuffleFn training_list, validation_list)
  else
    (env.storedTraining, env.storedValidation)

/-- numpy's `arr.min()` on a (nonempty) flattened volume; `0` on the empty
volume, a case the source never produces. -/
def npMin : List ℚ → ℚ
  | [] => 0
  | x :: xs => xs.foldl min x

/-- numpy's `arr.max()` on a (nonempty) flattened volume. -/
def npMax : List ℚ → ℚ
  | [] => 0
  | x :: xs => xs.foldl max x

/-- Embeds the per-volume normalization of `add_data` (lines 274–282):
a constant volume becomes `v - v` (all zeros), otherwise the volume is
rescaled by `(v - min) / (max - min)`. -/
def normalizeVolume (v : List ℚ) : List ℚ :=
  if npMin v = npMax v then v.map (fun a => a - a)
  else v.map (fun a => (a - npMin v) / (npMax v - npMin v))

/-- The `x_list` accumulator: its two slots collect the two normalized
image volumes of each recorded sample. -/
structure XLists where
  x0 : List (List ℚ)
  x1 : List (List ℚ)
  deriving DecidableEq, Repr

/-- The `y_list` accumulator: derived labels, and the two truth volumes
(each with the `np.newaxis` leading singleton axis, which the flat encoding
leaves untouched). -/
structure YLists where
  y0 : List Nat
  y1 : List (List Int)
  y2 : List (List Int)
  deriving DecidableEq, Repr

def emptyX : XLists := ⟨[], []⟩

def emptyY : YLists := ⟨[], [], []⟩

/-- The external `augment_data` utility (out of repository scope), modelled
as an explicit functional parameter: it receives
`(data0, data1, truth0, truth1, affine0, affine1, flip, scale_deviation)`
and returns updated `(data0, truth0, data1, truth1)`. -/
def AugFn : Type :=
  List ℚ → List ℚ → List Int → List Int → List ℚ → List ℚ → Bool → ℚ →
    List ℚ × List Int × List ℚ × List Int

/-- Embeds `add_data` (lines 217–296) in state-passing style: the updated
accumulator pair is returned on success, an error means the Python call
raised and mutated nothing.  The permute branch of the source (lines
255–259) reads the local names `data` and `truth`, which are never assigned
in `add_data`, so entering it raises `UnboundLocalError` before the cube
check — modelled as `nameError`. -/
def add_data (x_list : XLists) (y_list : YLists) (data_file0 data_file1 : DataFile)
    (index : Nat) (augment : Bool) (augment_flip : Bool)
    (augment_distortion_factor : ℚ) (augmentFn : AugFn)
    (patch_shape : Option (List Nat)) (skip_blank : Bool) (permute : Bool) :
    Except PyError (XLists × YLists) :=
  match get_data_from_file data_file0 index patch_shape with
  | .error e => .error e
  | .ok (data0, truth0, label0) =>
  match get_data_from_file data_file1 index patch_shape with
  | .error e => .error e
  | .ok (data1, truth1, label1) =>
  if label0 ≠ label1 then .error .dataConsistencyError
  else
    let aug :=
      if augment then
        augmentFn data0 data1 truth0 truth1 (data_file0.affine index)
          (data_file1.affine index) augment_flip augment_distortion_factor
      else (data0, truth0, data1, truth1)
    match aug with
    | (data0, truth0, data1, truth1) =>
      if permute then .error .nameError
      else
        if !skip_blank || (truth0.any (fun v => v != 0) || truth1.any (fun v => v != 0)) then
          .ok (⟨x_list.x0 ++ [normalizeVolume data0], x_list.x1 ++ [normalizeVolume data1]⟩,
               ⟨y_list.y0 ++ [label0], y_list.y1 ++ [truth0], y_list.y2 ++ [truth1]⟩)
        else
          .ok (x_list, y_list)

/-- Embeds `get_multi_class_labels` (lines 357–372) on its documented input
type: a stacked truth array of shape `(N, 1, …spatial…)`, flattened here to
one voxel list per sample.  Channel `k` of sample `s` is `1` exactly where
sample `s`'s voxel equals `labels[k]` (or `k+1` when `labels` is `None`). -/
def get_multi_class_labels (data : List (List Int)) (n_labels : Nat)
    (labels : Option (List Int)) : List (List (List Int)) :=
  data.map (fun sample =>
    (List.range n_labels).map (fun label_index =>
      sample.map (fun v =>
        match labels with
        | some ls => if v = ls.getD label_index 0 then 1 else 0
        | none => if v = (label_index : Int) + 1 then 1 else 0)))

/-- Embeds the active `convert_data` (lines 337–355).  For `n_labels = 1`
the two truth arrays are binarized in place (`y[y > 0] = 1`).  For
`n_labels > 1` the source passes the whole 3-element Python list `y`
(derived labels plus both truth arrays) to `get_multi_class_labels`, whose
first statement evaluates `data.shape` — an `AttributeError` on a list —
so that branch is modelled as that error. -/
def convert_data (x_list : XLists) (y_list : YLists) (n_labels : Nat)
    (labels : Option (List Int)) : Except PyError (XLists × YLists) :=
  if n_labels = 1 then
    .ok (x_list,
         ⟨y_list.y0,
          y_list.y1.map (fun t => t.map (fun v => if v > 0 then 1 else v)),
          y_list.y2.map (fun t => t.map (fun v => if v > 0 then 1 else v))⟩)
  else if n_labels > 1 then
    .error .attributeError
  else
    .ok (x_list, y_list)

/-- The inner `while len(index_list) > 0` loop of `data_generator`
(lines 175–185), with the working list already reversed so that Python's
`index_list.pop()` (pop from the end) is the head here.  Yielded batches are
collected into a list; after each yield the accumulators restart empty,
exactly as in the source.  An exception anywhere in the epoch makes the
whole epoch fail, matching a raise out of the generator. -/
def genLoop (data_file0 data_file1 : DataFile) (batch_size n_labels : Nat)
    (labels : Option (List Int)) (augment augment_flip : Bool)
    (augment_distortion_factor : ℚ) (augmentFn : AugFn)
    (patch_shape : Option (List Nat)) (skip_blank permute : Bool) :
    List Nat → XLists → YLists → Except PyError (List (XLists × YLists))
  | [], _, _ => .ok []
  | index :: rest, x_list, y_list =>
    match add_data x_list y_list data_file0 data_file1 index augment augment_flip
        augment_distortion_factor augmentFn patch_shape skip_blank permute with
    | .error e => .error e
    | .ok (x', y') =>
      if y'.y0.length = batch_size ∨ (rest = [] ∧ 0 < y'.y0.length) then
        match convert_data x' y' n_labels labels with
        | .error e => .error e
        | .ok batch =>
          match genLoop data_file0 data_file1 batch_size n_labels labels augment
              augment_flip augment_distortion_factor augmentFn patch_shape
              skip_blank permute rest emptyX emptyY with
          | .error e => .error e
          | .ok batches => .ok (batch :: batches)
      else
        genLoop data_file0 data_file1 batch_size n_labels labels augment
          augment_flip augment_distortion_factor augmentFn patch_shape
          skip_blank permute rest x' y'

/-- Embeds `data_generator` (lines 160–185) as the epoch-indexed stream of
its yields: epoch `n` restarts from the original index list (reshuffled by
the epoch's `shuffles n` when `shuffle_index_list` holds) and produces that
epoch's batches in order.  The patch branch of the source (line 168) reads
the undefined name `data_file` (the parameters are `data_file0` and
`data_file1`), a `NameError` at runtime, modelled as that error. -/
def data_generator (data_file0 data_file1 : DataFile) (index_list : List Nat)
    (batch_size n_labels : Nat) (labels : Option (List Int))
    (augment augment_flip : Bool) (augment_distortion_factor : ℚ)
    (augmentFn : AugFn) (patch_shape : Option (List Nat))
    (shuffle_index_list : Bool) (shuffles : Nat → List Nat → List Nat)
    (skip_blank permute : Bool) :
    Nat → Except PyError (List (XLists × YLists)) :=
  fun epoch =>
    match patch_shape with
    | some _ => .error .nameError
    | none =>
      let working := if shuffle_index_list then shuffles epoch index_list else index_list
      genLoop data_file0 data_file1 batch_size n_labels labels augment augment_flip
        augment_distortion_factor augmentFn none skip_blank permute
        working.reverse emptyX emptyY

/-- The batch-size trace of one epoch when every popped index contributes
exactly one sample: processing `remaining` more indices with `acc` samples
already accumulated and batch size `b`, the sizes of the batches yielded. -/
def sizeTrace (remaining acc b : Nat) : List Nat :=
  match remaining with
  | 0 => []
  | r + 1 =>
    if acc + 1 = b ∨ (r = 0 ∧ 0 < acc + 1) then (acc + 1) :: sizeTrace r 0 b
    else sizeTrace r (acc + 1) b

theorem sizeTrace_succ (r acc b : Nat) :
    sizeTrace (r + 1) acc b =
      if acc + 1 = b ∨ (r = 0 ∧ 0 < acc + 1) then (acc + 1) :: sizeTrace r 0 b
      else sizeTrace r (acc + 1) b := rfl

theorem foldl_min_le_init (xs : List ℚ) (a : ℚ) : xs.foldl min a ≤ a := by
  induction xs generalizing a with
  | nil => exact le_refl a
  | cons x xs ih => exact le_trans (ih (min a x)) (min_le_left a x)

theorem foldl_min_le_mem (xs : List ℚ) (a x : ℚ) (hx : x ∈ xs) :
    xs.foldl min a ≤ x := by
  induction xs generalizing a with
  | nil => cases hx
  | cons y ys ih =>
    rcases List.mem_cons.mp hx with h | h
    · subst h
      exact le_trans (foldl_min_le_init ys (min a x)) (min_le_right a x)
    · exact ih (min a y) h

theorem foldl_min_mem (xs : List ℚ) (a : ℚ) :
    xs.foldl min a = a ∨ xs.foldl min a ∈ xs := by
  induction xs generalizing a with
  | nil => exact Or.inl rfl
  | cons x xs ih =>
    have hred : List.foldl min a (x :: xs) = List.foldl min (min a x) xs := rfl
    rcases ih (min a x) with h | h
    · rcases min_cases a x with ⟨hm, _⟩ | ⟨hm, _⟩
      · exact Or.inl (by rw [hred, h, hm])
      · refine Or.inr ?_
        rw [hred, h, hm]
        exact List.mem_cons_self x xs
    · refine Or.inr ?_
      rw [hred]
      exact List.mem_cons_of_mem x h

theorem le_foldl_max_init (xs : List ℚ) (a : ℚ) : a ≤ xs.foldl max a := by
  induction xs generalizing a with
  | nil => exact le_refl a
  | cons x xs ih => exact le_trans (le_max_left a x) (ih (max a x))

theorem le_foldl_max_mem (xs : List ℚ) (a x : ℚ) (hx : x ∈ xs) :
    x ≤ xs.foldl max a := by
  induction xs generalizing a with
  | nil => cases hx
  | cons y ys ih =>
    rcases List.mem_cons.mp hx with h | h
    · subst h
      exact le_trans (le_max_right a x) (le_foldl_max_init ys (max a x))
    · exact ih (max a y) h

theorem foldl_max_mem (xs : List ℚ) (a : ℚ) :
    xs.foldl max a = a ∨ xs.foldl max a ∈ xs := by
  induction xs generalizing a with
  | nil => exact Or.inl rfl
  | cons x xs ih =>
    have hred : List.foldl max a (x :: xs) = List.foldl max (max a x) xs := rfl
    rcases ih (max a x) with h | h
    · rcases max_cases a x with ⟨hm, _⟩ | ⟨hm, _⟩
      · exact Or.inl (by rw [hred, h, hm])
      · refine Or.inr ?_
        rw [hred, h, hm]
        exact List.mem_cons_self x xs
    · refine Or.inr ?_
      rw [hred]
      exact List.mem_cons_of_mem x h

theorem npMin_mem {l : List ℚ} (h : l ≠ []) : npMin l ∈ l := by
  cases l with
  | nil => exact absurd rfl h
  | cons x xs =>
    have hred : npMin (x :: xs) = xs.foldl min x := rfl
    rcases foldl_min_mem xs x with h1 | h1
    · rw [hred, h1]; exact List.mem_cons_self x xs
    · rw [hred]; exact List.mem_cons_of_mem x h1

theorem npMin_le {l : List ℚ} {x : ℚ} (hx : x ∈ l) : npMin l ≤ x := by
  cases l with
  | nil => cases hx
  | cons y ys =>
    rcases List.mem_cons.mp hx with h | h
    · exact h ▸ foldl_min_le_init ys y
    · exact foldl_min_le_mem ys y x h

theorem npMax_mem {l : List ℚ} (h : l ≠ []) : npMax l ∈ l := by
  cases l with
  | nil => exact absurd rfl h
  | cons x xs =>
    have hred : npMax (x :: xs) = xs.foldl max x := rfl
    rcases foldl_max_mem xs x with h1 | h1
    · rw [hred, h1]; exact List.mem_cons_self x xs
    · rw [hred]; exact List.mem_cons_of_mem x h1

theorem le_npMax {l : List ℚ} {x : ℚ} (hx : x ∈ l) : x ≤ npMax l := by
  cases l with
  | nil => cases hx
  | cons y ys =>
    rcases List.mem_cons.mp hx with h | h
    · exact h ▸ le_foldl_max_init ys y
    · exact le_foldl_max_mem ys y x h

theorem npMin_le_npMax {l : List ℚ} (h : l ≠ []) : npMin l ≤ npMax l :=
  npMin_le (npMax_mem h)

theorem npMin_eq_of {l : List ℚ} {y : ℚ} (hy : y ∈ l)
    (hle : ∀ x ∈ l, y ≤ x) : npMin l = y :=
  le_antisymm (npMin_le hy)
    (hle _ (npMin_mem (by rintro rfl; cases hy)))

theorem npMax_eq_of {l : List ℚ} {y : ℚ} (hy : y ∈ l)
    (hle : ∀ x ∈ l, x ≤ y) : npMax l = y :=
  le_antisymm (hle _ (npMax_mem (by rintro rfl; cases hy)))
    (le_npMax hy)

theorem npMin_map_mono {l : List ℚ} (hne : l ≠ []) {f : ℚ → ℚ}
    (hf : ∀ a b, a ≤ b → f a ≤ f b) : npMin (l.map f) = f (npMin l) := by
  refine npMin_eq_of (List.mem_map_of_mem f (npMin_mem hne)) ?_
  intro x hx
  rcases List.mem_map.mp hx with ⟨z, hz, rfl⟩
  exact hf _ _ (npMin_le hz)

theorem npMax_map_mono {l : List ℚ} (hne : l ≠ []) {f : ℚ → ℚ}
    (hf : ∀ a b, a ≤ b → f a ≤ f b) : npMax (l.map f) = f (npMax l) := by
  refine npMax_eq_of (List.mem_map_of_mem f (npMax_mem hne)) ?_
  intro x hx
  rcases List.mem_map.mp hx with ⟨z, hz, rfl⟩
  exact hf _ _ (le_npMax hz)

/-- C9: per-sample min-max normalization of each image volume.  A constant
volume (min = max) is replaced with an all-zero volume of the same shape
(length); otherwise each voxel becomes `(v - min) / (max - min)`, and the
resulting volume attains minimum exactly 0 and maximum exactly 1. -/
theorem normalizeVolume_spec (l : List ℚ) (hne : l ≠ []) :
    (npMin l = npMax l → normalizeVolume l = List.replicate l.length 0) ∧
    (npMin l ≠ npMax l →
      normalizeVolume l = l.map (fun v => (v - npMin l) / (npMax l - npMin l)) ∧
      npMin (normalizeVolume l) = 0 ∧ npMax (normalizeVolume l) = 1) := by
  constructor
  · intro h
    have hf : (fun a : ℚ => a - a) = fun _ => (0 : ℚ) := funext fun a => sub_self a
    simp [normalizeVolume, h, hf, List.map_const']
  · intro h
    have hlt : npMin l < npMax l := lt_of_le_of_ne (npMin_le_npMax hne) h
    have hpos : (0 : ℚ) < npMax l - npMin l := sub_pos.mpr hlt
    have hmono : ∀ a b : ℚ, a ≤ b →
        (a - npMin l) / (npMax l - npMin l) ≤ (b - npMin l) / (npMax l - npMin l) := by
      intro a b hab
      have := sub_le_sub_right hab (npMin l)
      exact div_le_div_of_nonneg_right this hpos.le
    have heq : normalizeVolume l
        = l.map (fun v => (v - npMin l) / (npMax l - npMin l)) := by
      simp [normalizeVolume, h]
    refine ⟨heq, ?_, ?_⟩
    · rw [heq, npMin_map_mono hne hmono, sub_self, zero_div]
    · rw [heq, npMax_map_mono hne hmono, div_self (ne_of_gt hpos)]

/-- C9 witness: the spec's example volume `[2, 10]` normalizes to exact
`[0, 1]` bounds. -/
theorem normalizeVolume_spec_witness :
    npMin (normalizeVolume [(2 : ℚ), 10]) = 0 ∧
    npMax (normalizeVolume [(2 : ℚ), 10]) = 1 := by
  have h := (normalizeVolume_spec [(2 : ℚ), 10] (by simp)).2
    (by norm_num [npMin, npMax])
  exact ⟨h.2.1, h.2.2⟩

/-- C2: the step calculator returns `sampleCount` itself when
`sampleCount ≤ batchSize`, the exact quotient when `batchSize` divides
`sampleCount`, and the quotient plus one otherwise; in particular
`stepsFor 10 3 = 4` and `stepsFor 9 3 = 3`. -/
theorem get_number_of_steps_spec (n_samples batch_size : Nat)
    (hb : 0 < batch_size) :
    (get_number_of_steps n_samples batch_size =
      if n_samples ≤ batch_size then n_samples
      else if batch_size ∣ n_samples then n_samples / batch_size
      else n_samples / batch_size + 1) ∧
    get_number_of_steps 10 3 = 4 ∧ get_number_of_steps 9 3 = 3 := by
  refine ⟨?_, by decide, by decide⟩
  simp only [get_number_of_steps, Nat.dvd_iff_mod_eq_zero]

/-- C2 witness: the step calculator at the spec's concrete examples. -/
theorem get_number_of_steps_spec_witness :
    get_number_of_steps 10 3 = 4 ∧ get_number_of_steps 9 3 = 3 :=
  (get_number_of_steps_spec 10 3 (by decide)).2

/-- C3: the whole-volume record reader splits the decoded subject id on
`'-'`, maps the first character of the last segment `'C' ↦ 1`,
`'A'/'B' ↦ 0`, and fails with the fatal `invalidSubjectLabel` on any other
character. -/
theorem get_data_from_file_label_spec (f : DataFile) (i : Nat) (c : Char)
    (rest : List Char)
    (hlast : (splitOnDash (f.subject_ids i)).getLastD [] = c :: rest) :
    get_data_from_file f i none =
      (if c = 'C' then .ok (f.data i, f.truth i, 1)
       else if c = 'A' ∨ c = 'B' then .ok (f.data i, f.truth i, 0)
       else .error .invalidSubjectLabel) := by
  simp only [get_data_from_file, labelFromIds, hlast]
  by_cases hC : c = 'C'
  · simp [hC]
  · by_cases hAB : c = 'A' ∨ c = 'B'
    · simp [hC, hAB]
    · simp [hC, hAB]

/-- A concrete dataset file whose every subject has id `foo-bar-C1`. -/
def fileC : DataFile :=
  ⟨fun _ => [0, 1], fun _ => [1], fun _ => "foo-bar-C1".toList, fun _ => []⟩

/-- A concrete dataset file whose every subject has id `foo-bar-A2`. -/
def fileA : DataFile :=
  ⟨fun _ => [0, 1], fun _ => [1], fun _ => "foo-bar-A2".toList, fun _ => []⟩

/-- C3 witness: the spec's example id `foo-bar-C1` yields derived label 1. -/
theorem get_data_from_file_label_spec_witness :
    get_data_from_file fileC 0 none = .ok (fileC.data 0, fileC.truth 0, 1) := by
  have h := get_data_from_file_label_spec fileC 0 'C' ['1'] (by decide)
  simpa using h

/-- C10: a subject id with no `'-'` does not make the reader fail on the
missing separator: the whole id is the last segment, so the derived label
comes from the id's first character under the same mapping. -/
theorem get_data_from_file_no_dash_spec (f : DataFile) (i : Nat) (c : Char)
    (rest : List Char) (hid : f.subject_ids i = c :: rest)
    (hnodash : '-' ∉ c :: rest) :
    get_data_from_file f i none =
      (if c = 'C' then .ok (f.data i, f.truth i, 1)
       else if c = 'A' ∨ c = 'B' then .ok (f.data i, f.truth i, 0)
       else .error .invalidSubjectLabel) := by
  have hsplit : splitOnDash (f.subject_ids i) = [c :: rest] := by
    rw [hid]; exact splitOnDash_of_not_mem hnodash
  have hlast : (splitOnDash (f.subject_ids i)).getLastD [] = c :: rest := by
    rw [hsplit]; rfl
  simp only [get_data_from_file, labelFromIds, hlast]
  by_cases hC : c = 'C'
  · simp [hC]
  · by_cases hAB : c = 'A' ∨ c = 'B'
    · simp [hC, hAB]
    · simp [hC, hAB]

/-- A concrete dataset file whose every subject has the separator-free
id `B9`. -/
def fileNoDash : DataFile :=
  ⟨fun _ => [0, 1], fun _ => [1], fun _ => "B9".toList, fun _ => []⟩

/-- C10 witness: the separator-free id `B9` yields derived label 0. -/
theorem get_data_from_file_no_dash_spec_witness :
    get_data_from_file fileNoDash 0 none =
      .ok (fileNoDash.data 0, fileNoDash.truth 0, 0) := by
  have h := get_data_from_file_no_dash_spec fileNoDash 0 'B' ['9'] rfl (by decide)
  simpa using h

/-- C1: when the split is (re)created, the validation list is exactly
`[10..29] ++ [52..71] ++ [249..268]` (unshuffled), the training list is a
permutation of the fixed oversampled multiset, and the `data_split`
parameter has no effect on the result. -/
theorem get_validation_split_spec (env : SplitEnv) (ds ds2 : ℚ) (ov : Bool)
    (hcreate : ov = true ∨ env.trainingFileExists = false)
    (hshuffle : ∀ l, (env.shuffleFn l).Perm l) :
    (get_validation_split env ds ov).2 =
      pyRange 10 30 ++ pyRange 52 72 ++ pyRange 249 269 ∧
    (get_validation_split env ds ov).1.Perm
      (pyRange 0 10 ++ pyRange 30 42 ++ pyRange 42 52 ++ pyRange 72 239 ++ [238]
        ++ listRepeat (pyRange 239 249) 5 ++ listRepeat (pyRange 269 299) 5) ∧
    get_validation_split env ds ov = get_validation_split env ds2 ov := by
  have hcond : (ov || !env.trainingFileExists) = true := by
    rcases hcreate with h | h <;> simp [h]
  have hlast : (pyRange 72 239).getLastD 0 = 238 := by decide
  refine ⟨?_, ?_, rfl⟩
  · simp [get_validation_split, hcond]
  · simp only [get_validation_split, hcond, if_true]
    rw [hlast]
    exact hshuffle _

/-- C1 witness: recreating the split with the identity shuffle and
`overwrite = true` returns the literal validation list. -/
theorem get_validation_split_spec_witness :
    (get_validation_split ⟨false, [], [], fun l => l⟩ (8 / 10) true).2 =
      pyRange 10 30 ++ pyRange 52 72 ++ pyRange 249 269 :=
  (get_validation_split_spec ⟨false, [], [], fun l => l⟩ (8 / 10) 0 true
    (Or.inl rfl) (fun l => List.Perm.refl l)).1

/-- A trivial model of the external augmentation utility that returns its
volumes unchanged. -/
def augId : AugFn := fun data0 data1 truth0 truth1 _ _ _ _ =>
  (data0, truth0, data1, truth1)

theorem add_data_ok_append (x : XLists) (y : YLists) (f0 f1 : DataFile)
    (i : Nat) (aflip : Bool) (adf : ℚ) (augF : AugFn) (sb : Bool)
    (d0 d1 : List ℚ) (t0 t1 : List Int) (l : Nat)
    (h0 : get_data_from_file f0 i none = .ok (d0, t0, l))
    (h1 : get_data_from_file f1 i none = .ok (d1, t1, l))
    (hfilter : (!sb || (t0.any (fun v => v != 0) || t1.any (fun v => v != 0))) = true) :
    add_data x y f0 f1 i false aflip adf augF none sb false =
      .ok (⟨x.x0 ++ [normalizeVolume d0], x.x1 ++ [normalizeVolume d1]⟩,
           ⟨y.y0 ++ [l], y.y1 ++ [t0], y.y2 ++ [t1]⟩) := by
  simp [add_data, h0, h1, hfilter]

theorem add_data_ok_skip (x : XLists) (y : YLists) (f0 f1 : DataFile)
    (i : Nat) (aflip : Bool) (adf : ℚ) (augF : AugFn) (sb : Bool)
    (d0 d1 : List ℚ) (t0 t1 : List Int) (l : Nat)
    (h0 : get_data_from_file f0 i none = .ok (d0, t0, l))
    (h1 : get_data_from_file f1 i none = .ok (d1, t1, l))
    (hfilter : (!sb || (t0.any (fun v => v != 0) || t1.any (fun v => v != 0))) = false) :
    add_data x y f0 f1 i false aflip adf augF none sb false = .ok (x, y) := by
  simp [add_data, h0, h1, hfilter]

/-- C7: when the two twin-file reads of an index yield different derived
labels, the sample loader fails with the fatal data-consistency error; in
this state-passing embedding an error returns no updated accumulators, so
nothing is appended to either accumulator list. -/
theorem add_data_label_mismatch (x : XLists) (y : YLists) (f0 f1 : DataFile)
    (i : Nat) (aug aflip : Bool) (adf : ℚ) (augF : AugFn) (sb perm : Bool)
    (d0 d1 : List ℚ) (t0 t1 : List Int) (l0 l1 : Nat)
    (h0 : get_data_from_file f0 i none = .ok (d0, t0, l0))
    (h1 : get_data_from_file f1 i none = .ok (d1, t1, l1))
    (hne : l0 ≠ l1) :
    add_data x y f0 f1 i aug aflip adf augF none sb perm =
      .error .dataConsistencyError := by
  simp [add_data, h0, h1, hne]

/-- C7 witness: twin files whose ids are `foo-bar-A2` and `foo-bar-C1`
disagree on the derived label and make the loader fail. -/
theorem add_data_label_mismatch_witness :
    add_data emptyX emptyY fileA fileC 0 false false 0 augId none true false =
      .error .dataConsistencyError := by
  exact add_data_label_mismatch emptyX emptyY fileA fileC 0 false false 0 augId
    true false [0, 1] [0, 1] [1] [1] 0 1 rfl rfl (by decide)

/-- C8: the blank-sample filter of the sample loader (no augmentation, no
permutation): if `skip_blank` is false or either truth volume has a nonzero
voxel, exactly one sample is appended to every accumulator slot; if
`skip_blank` is true and both truth volumes are entirely zero, the
accumulators are returned unchanged and no error is raised. -/
theorem add_data_blank_filter (x : XLists) (y : YLists) (f0 f1 : DataFile)
    (i : Nat) (aflip : Bool) (adf : ℚ) (augF : AugFn) (sb : Bool)
    (d0 d1 : List ℚ) (t0 t1 : List Int) (l : Nat)
    (h0 : get_data_from_file f0 i none = .ok (d0, t0, l))
    (h1 : get_data_from_file f1 i none = .ok (d1, t1, l)) :
    (sb = false ∨ (∃ v ∈ t0, v ≠ 0) ∨ (∃ v ∈ t1, v ≠ 0) →
      add_data x y f0 f1 i false aflip adf augF none sb false =
        .ok (⟨x.x0 ++ [normalizeVolume d0], x.x1 ++ [normalizeVolume d1]⟩,
             ⟨y.y0 ++ [l], y.y1 ++ [t0], y.y2 ++ [t1]⟩)) ∧
    (sb = true ∧ (∀ v ∈ t0, v = 0) ∧ (∀ v ∈ t1, v = 0) →
      add_data x y f0 f1 i false aflip adf augF none sb false = .ok (x, y)) := by
  constructor
  · intro h
    refine add_data_ok_append x y f0 f1 i aflip adf augF sb d0 d1 t0 t1 l h0 h1 ?_
    simp only [Bool.or_eq_true, Bool.not_eq_true', List.any_eq_true, bne_iff_ne,
      ne_eq]
    rcases h with h | ⟨v, hv, hne⟩ | ⟨v, hv, hne⟩
    · exact Or.inl h
    · exact Or.inr (Or.inl ⟨v, hv, hne⟩)
    · exact Or.inr (Or.inr ⟨v, hv, hne⟩)
  · rintro ⟨hsb, hz0, hz1⟩
    refine add_data_ok_skip x y f0 f1 i aflip adf augF sb d0 d1 t0 t1 l h0 h1 ?_
    subst hsb
    simp only [Bool.not_true, Bool.false_or, Bool.or_eq_false_iff,
      List.any_eq_false, bne_iff_ne, ne_eq, not_not]
    exact ⟨hz0, hz1⟩

/-- C8 witness: a sample with truth volume `[1]` survives the filter under
`skip_blank = true` and is appended once to every accumulator slot. -/
theorem add_data_blank_filter_witness :
    add_data emptyX emptyY fileA fileA 0 false false 0 augId none true false =
      .ok (⟨[normalizeVolume [0, 1]], [normalizeVolume [0, 1]]⟩,
           ⟨[0], [[1]], [[1]]⟩) := by
  have h := (add_data_blank_filter emptyX emptyY fileA fileA 0 false 0 augId
    true [0, 1] [0, 1] [1] [1] 0 rfl rfl).1
    (Or.inr (Or.inl ⟨1, by decide, by decide⟩))
  simpa [emptyX, emptyY] using h

/-- C4 (code divergence): with permutation enabled the source's permute
branch reads the never-assigned locals `data`/`truth` (line 256), so even a
well-formed cube sample raises `UnboundLocalError` before any cube-shape
check or permutation can happen; the embedding evaluates the loader at such
a sample and observes that error. -/
theorem add_data_permute_nameError :
    add_data emptyX emptyY fileA fileA 0 false false 0 augId none true true =
      .error .nameError := by
  rfl

/-- C6 (code divergence): assembling a batch with `n_labels = 2` passes the
whole 3-element `y` list (derived labels plus both truth arrays) to
`get_multi_class_labels`, whose first statement reads `data.shape` — an
`AttributeError` on a Python list — instead of encoding each truth array;
the embedding evaluates the assembler at such a batch and observes that
error. -/
theorem convert_data_multilabel_attributeError :
    convert_data ⟨[[0]], [[0]]⟩ ⟨[0], [[0, 1, 2]], [[0, 1, 2]]⟩ 2 (some [1, 2]) =
      .error .attributeError := by
  rfl

theorem genLoop_cons (f0 f1 : DataFile) (b n : Nat) (labels : Option (List Int))
    (aug aflip : Bool) (adf : ℚ) (augF : AugFn) (psh : Option (List Nat))
    (sb perm : Bool) (i : Nat) (rest : List Nat) (x : XLists) (y : YLists) :
    genLoop f0 f1 b n labels aug aflip adf augF psh sb perm (i :: rest) x y =
      match add_data x y f0 f1 i aug aflip adf augF psh sb perm with
      | .error e => .error e
      | .ok (x', y') =>
        if y'.y0.length = b ∨ (rest = [] ∧ 0 < y'.y0.length) then
          match convert_data x' y' n labels with
          | .error e => .error e
          | .ok batch =>
            match genLoop f0 f1 b n labels aug aflip adf augF psh sb perm
                rest emptyX emptyY with
            | .error e => .error e
            | .ok batches => .ok (batch :: batches)
        else
          genLoop f0 f1 b n labels aug aflip adf augF psh sb perm rest x' y' := by
  rfl

theorem genLoop_cons_ok (f0 f1 : DataFile) (b n : Nat) (labels : Option (List Int))
    (aug aflip : Bool) (adf : ℚ) (augF : AugFn) (psh : Option (List Nat))
    (sb perm : Bool) (i : Nat) (rest : List Nat) (x : XLists) (y : YLists)
    (x2 : XLists) (y2 : YLists)
    (hadd : add_data x y f0 f1 i aug aflip adf augF psh sb perm = .ok (x2, y2)) :
    genLoop f0 f1 b n labels aug aflip adf augF psh sb perm (i :: rest) x y =
      if y2.y0.length = b ∨ (rest = [] ∧ 0 < y2.y0.length) then
        match convert_data x2 y2 n labels with
        | .error e => .error e
        | .ok batch =>
          match genLoop f0 f1 b n labels aug aflip adf augF psh sb perm
              rest emptyX emptyY with
          | .error e => .error e
          | .ok batches => .ok (batch :: batches)
      else
        genLoop f0 f1 b n labels aug aflip adf augF psh sb perm rest x2 y2 := by
  rw [genLoop_cons, hadd]

theorem genLoop_sizes (f0 f1 : DataFile) (b : Nat) (labels : Option (List Int))
    (aflip : Bool) (adf : ℚ) (augF : AugFn) (sb : Bool) :
    ∀ (w : List Nat) (x : XLists) (y : YLists),
      (∀ i ∈ w, ∃ d0 d1 t0 t1 l,
        get_data_from_file f0 i none = .ok (d0, t0, l) ∧
        get_data_from_file f1 i none = .ok (d1, t1, l) ∧
        (!sb || (t0.any (fun v => v != 0) || t1.any (fun v => v != 0))) = true) →
      ∃ bs,
        genLoop f0 f1 b 1 labels false aflip adf augF none sb false w x y = .ok bs ∧
        bs.map (fun p => p.2.y0.length) = sizeTrace w.length y.y0.length b := by
  intro w
  induction w with
  | nil => exact fun x y _ => ⟨[], rfl, rfl⟩
  | cons i rest ih =>
    intro x y hw
    obtain ⟨d0, d1, t0, t1, l, h0, h1, hf⟩ := hw i (List.mem_cons_self i rest)
    have hadd := add_data_ok_append x y f0 f1 i aflip adf augF sb d0 d1 t0 t1 l h0 h1 hf
    have hrest : ∀ j ∈ rest, ∃ d0 d1 t0 t1 l,
        get_data_from_file f0 j none = .ok (d0, t0, l) ∧
        get_data_from_file f1 j none = .ok (d1, t1, l) ∧
        (!sb || (t0.any (fun v => v != 0) || t1.any (fun v => v != 0))) = true :=
      fun j hj => hw j (List.mem_cons_of_mem i hj)
    have hstep := genLoop_cons_ok f0 f1 b 1 labels false aflip adf augF none sb false
      i rest x y _ _ hadd
    have hrl : rest = [] ↔ rest.length = 0 := Iff.symm List.length_eq_zero
    by_cases hcond : y.y0.length + 1 = b ∨ (rest = [] ∧ 0 < y.y0.length + 1)
    · obtain ⟨bs, hbs, hsz⟩ := ih emptyX emptyY hrest
      refine ⟨(⟨x.x0 ++ [normalizeVolume d0], x.x1 ++ [normalizeVolume d1]⟩, ⟨y.y0 ++ [l],
        (y.y1 ++ [t0]).map (fun t => t.map (fun v => if v > 0 then 1 else v)),
        (y.y2 ++ [t1]).map (fun t => t.map (fun v => if v > 0 then 1 else v))⟩) :: bs,
        ?_, ?_⟩
      · rw [hstep, if_pos (by simpa using hcond), hbs]
        rfl
      · simp only [List.map_cons, hsz, List.length_cons]
        rw [sizeTrace_succ,
          if_pos (by simp only [List.length_eq_zero]; exact hcond)]
        simp [emptyY]
    · obtain ⟨bs, hbs, hsz⟩ := ih
        ⟨x.x0 ++ [normalizeVolume d0], x.x1 ++ [normalizeVolume d1]⟩
        ⟨y.y0 ++ [l], y.y1 ++ [t0], y.y2 ++ [t1]⟩ hrest
      refine ⟨bs, ?_, ?_⟩
      · rw [hstep, if_neg (by simpa using hcond)]
        exact hbs
      · rw [hsz]
        simp only [List.length_cons]
        rw [sizeTrace_succ,
          if_neg (by simp only [List.length_eq_zero]; exact hcond)]
        simp

/-- C5: over an index list of length 7 with batch size 3, no patch shape,
and every index contributing a sample that survives the blank filter
(twin reads succeed with agreeing labels), every epoch of the generator
yields exactly three batches of sizes 3, 3, 1 in that order — the
accumulators restart empty after each yield by construction of `genLoop` —
and since this holds for every epoch index, the stream restarts after each
full pass and never terminates on its own. -/
theorem data_generator_batches_7_3 (f0 f1 : DataFile) (orig : List Nat)
    (labels : Option (List Int)) (aflip : Bool) (adf : ℚ) (augF : AugFn)
    (sb : Bool) (shuffles : Nat → List Nat → List Nat)
    (hlen : orig.length = 7)
    (hshuffle : ∀ n, (shuffles n orig).Perm orig)
    (hok : ∀ i ∈ orig, ∃ d0 d1 t0 t1 l,
      get_data_from_file f0 i none = .ok (d0, t0, l) ∧
      get_data_from_file f1 i none = .ok (d1, t1, l) ∧
      (!sb || (t0.any (fun v => v != 0) || t1.any (fun v => v != 0))) = true) :
    ∀ epoch, ∃ bs,
      data_generator f0 f1 orig 3 1 labels false aflip adf augF none true
        shuffles sb false epoch = .ok bs ∧
      bs.map (fun p => p.2.y0.length) = [3, 3, 1] := by
  intro epoch
  have hperm := hshuffle epoch
  have hw : ∀ i ∈ (shuffles epoch orig).reverse, ∃ d0 d1 t0 t1 l,
      get_data_from_file f0 i none = .ok (d0, t0, l) ∧
      get_data_from_file f1 i none = .ok (d1, t1, l) ∧
      (!sb || (t0.any (fun v => v != 0) || t1.any (fun v => v != 0))) = true :=
    fun i hi => hok i (hperm.mem_iff.mp (List.mem_reverse.mp hi))
  obtain ⟨bs, hbs, hsz⟩ := genLoop_sizes f0 f1 3 labels aflip adf augF sb
    ((shuffles epoch orig).reverse) emptyX emptyY hw
  refine ⟨bs, ?_, ?_⟩
  · simpa [data_generator] using hbs
  · rw [hsz]
    have hlen7 : (shuffles epoch orig).reverse.length = 7 := by
      rw [List.length_reverse, hperm.length_eq, hlen]
    rw [hlen7]
    rfl

/-- C5 witness: seven identical surviving subjects, batch size 3, identity
shuffle — epoch 0 yields batches of sizes 3, 3, 1. -/
theorem data_generator_batches_7_3_witness :
    ∃ bs,
      data_generator fileA fileA [0, 1, 2, 3, 4, 5, 6] 3 1 none false false 0
        augId none true (fun _ l => l) true false 0 = .ok bs ∧
      bs.map (fun p => p.2.y0.length) = [3, 3, 1] :=
  data_generator_batches_7_3 fileA fileA [0, 1, 2, 3, 4, 5, 6] none false 0
    augId true (fun _ l => l) rfl (fun _ => List.Perm.refl _)
    (fun i _ => ⟨[0, 1], [0, 1], [1], [1], 0, rfl, rfl, rfl⟩) 0

end RPNet
